import Mathlib

/-!
Verification of the rendezvous protocol handler in `src/bin/rendezvous.rs`.

The server state, the wire message type and the dispatch function
`handle_message` are shallowly embedded below.  Machine-level aspects that
the handler never inspects are abstracted as follows:

* `std::net::SocketAddr` becomes an opaque pair of naturals (IP, port);
  the handler only copies addresses around and compares records.
* `SystemTime::now()` becomes an explicit `now : Nat` argument threaded
  into the handler; the transport loop supplies a clock reading per event.
* `HashMap<String, PeerInfo>` becomes an association list whose `insert`
  shadows earlier bindings and whose `lookup` returns the newest binding,
  the observable get/insert semantics of the Rust map.
* `socket.send_to` in the pure model `handle_message` always succeeds and
  the sent datagrams are collected in an output list, in send order.
  `handle_messageE` additionally takes the environment's verdict on each
  send (`sendOk`) and mirrors the `?` operator: the first failing send
  aborts the handler with an error, exactly as the Rust code propagates
  `std::io::Error` out of `handle_message`.
* bincode decoding in `run` is third-party code; a received datagram is
  modelled by its decode result (`Option RendezvousMessage`) plus the
  transport-observed source address.
-/

/-- Network address (IP and port), modelling `std::net::SocketAddr`.
The handler never inspects the inside of an address, so an opaque pair
of naturals suffices. -/
structure SockAddr where
  ip : Nat
  port : Nat
deriving DecidableEq

/-- One registry record, modelling `struct PeerInfo` of the source. -/
structure PeerInfo where
  peer_id : String
  public_addr : SockAddr
  private_addr : Option SockAddr
  last_seen : Nat
deriving DecidableEq

/-- The wire message, modelling `enum RendezvousMessage` of the source.
Note that in the source the `Register` variant carries a plain
`SocketAddr` for `private_addr`, not an `Option`. -/
inductive RendezvousMessage where
  | Register (peer_id : String) (private_addr : SockAddr)
  | Query (target_peer_id : String)
  | PeerInfo (peer : PeerInfo)
  | InitiateConnection (from_peer_id : String) (to_peer_id : String)
deriving DecidableEq

/-- Whether a message is a `Register`. -/
def RendezvousMessage.isRegister : RendezvousMessage → Bool
  | RendezvousMessage.Register _ _ => true
  | _ => false

/-- The private address carried by a `Register` message, `none` for the
other variants.  In the source the field is mandatory, so a `Register`
always yields `some`. -/
def RendezvousMessage.registerPrivate : RendezvousMessage → Option SockAddr
  | RendezvousMessage.Register _ private_addr => some private_addr
  | _ => none

/-- `HashMap::get` on the registry: newest binding for the key. -/
def lookupPeer : List (String × PeerInfo) → String → Option PeerInfo
  | [], _ => none
  | (k, v) :: rest, q => if k = q then some v else lookupPeer rest q

/-- `HashMap::insert` on the registry: the new binding shadows any
earlier one for the same key. -/
def insertPeer (ps : List (String × PeerInfo)) (k : String) (v : PeerInfo) :
    List (String × PeerInfo) :=
  (k, v) :: ps

/-- Server state, modelling `struct RendezvousServer` (the socket itself
is owned by the transport layer and is not part of the handler state). -/
structure RendezvousServer where
  peers : List (String × PeerInfo)
deriving DecidableEq

/-- One outbound UDP datagram: destination address and (decoded) payload. -/
structure Datagram where
  dest : SockAddr
  msg : RendezvousMessage
deriving DecidableEq

/-- `RendezvousServer::handle_message`, pure model: given the decoded
message, the transport-observed source address and the current clock
reading, return the new server state and the list of datagrams sent,
in send order.  Sends are assumed to succeed (see `handle_messageE`
for the error-aware version). -/
def handle_message (s : RendezvousServer) (msg : RendezvousMessage)
    (fromAddr : SockAddr) (now : Nat) : RendezvousServer × List Datagram :=
  match msg with
  | RendezvousMessage.Register peer_id private_addr =>
      (⟨insertPeer s.peers peer_id
          ⟨peer_id, fromAddr, some private_addr, now⟩⟩, [])
  | RendezvousMessage.Query target_peer_id =>
      match lookupPeer s.peers target_peer_id with
      | some peer_info =>
          (s, [⟨fromAddr, RendezvousMessage.PeerInfo peer_info⟩])
      | none => (s, [])
  | RendezvousMessage.InitiateConnection from_peer_id to_peer_id =>
      match lookupPeer s.peers from_peer_id, lookupPeer s.peers to_peer_id with
      | some from_peer, some to_peer =>
          (s, [⟨from_peer.public_addr, RendezvousMessage.PeerInfo to_peer⟩,
               ⟨to_peer.public_addr, RendezvousMessage.PeerInfo from_peer⟩])
      | _, _ => (s, [])
  | RendezvousMessage.PeerInfo _ => (s, [])

/-- `RendezvousServer::handle_message`, error-aware model.  `sendOk`
is the environment's verdict on each attempted `send_to`; a failing
send makes the handler return the error at once (the `?` operator),
so later sends of the same dispatch are not attempted.  On success the
returned list holds the datagrams actually sent. -/
def handle_messageE (sendOk : Datagram → Bool) (s : RendezvousServer)
    (msg : RendezvousMessage) (fromAddr : SockAddr) (now : Nat) :
    Except Unit (RendezvousServer × List Datagram) :=
  match msg with
  | RendezvousMessage.Register peer_id private_addr =>
      Except.ok (⟨insertPeer s.peers peer_id
          ⟨peer_id, fromAddr, some private_addr, now⟩⟩, [])
  | RendezvousMessage.Query target_peer_id =>
      match lookupPeer s.peers target_peer_id with
      | some peer_info =>
          let d : Datagram := ⟨fromAddr, RendezvousMessage.PeerInfo peer_info⟩
          if sendOk d then Except.ok (s, [d]) else Except.error ()
      | none => Except.ok (s, [])
  | RendezvousMessage.InitiateConnection from_peer_id to_peer_id =>
      match lookupPeer s.peers from_peer_id, lookupPeer s.peers to_peer_id with
      | some from_peer, some to_peer =>
          let d1 : Datagram :=
            ⟨from_peer.public_addr, RendezvousMessage.PeerInfo to_peer⟩
          let d2 : Datagram :=
            ⟨to_peer.public_addr, RendezvousMessage.PeerInfo from_peer⟩
          if sendOk d1 then
            if sendOk d2 then Except.ok (s, [d1, d2]) else Except.error ()
          else Except.error ()
      | _, _ => Except.ok (s, [])
  | RendezvousMessage.PeerInfo _ => Except.ok (s, [])

/-- One transport-layer event seen by `RendezvousServer::run`:
a received datagram (represented by its bincode decode result and its
source address), a would-block poll, or a receive-side I/O error. -/
inductive NetEvent where
  | recv (decoded : Option RendezvousMessage) (fromAddr : SockAddr)
  | wouldBlock
  | ioErr

/-- One iteration of the `loop` in `RendezvousServer::run`.  A decode
failure discards the datagram silently; would-block sleeps; a receive
error is logged and the loop continues; a decoded message goes to the
handler, whose own error (a failed send, propagated by `?`) escapes
`run` and ends the loop — hence the `Except`. -/
def runStep (sendOk : Datagram → Bool) (s : RendezvousServer)
    (ev : NetEvent) (now : Nat) :
    Except Unit (RendezvousServer × List Datagram) :=
  match ev with
  | NetEvent.recv (some msg) fromAddr =>
      handle_messageE sendOk s msg fromAddr now
  | NetEvent.recv none _ => Except.ok (s, [])
  | NetEvent.wouldBlock => Except.ok (s, [])
  | NetEvent.ioErr => Except.ok (s, [])

/-- Run the loop of `RendezvousServer::run` over a finite trace of
transport events, each tagged with the clock reading at that
iteration.  Accumulates all datagrams sent; stops with the error as
soon as an iteration fails. -/
def runEvents (sendOk : Datagram → Bool) (s : RendezvousServer) :
    List (NetEvent × Nat) → Except Unit (RendezvousServer × List Datagram)
  | [] => Except.ok (s, [])
  | e :: rest =>
      match runStep sendOk s e.1 e.2 with
      | Except.error u => Except.error u
      | Except.ok (s1, out) =>
          match runEvents sendOk s1 rest with
          | Except.error u => Except.error u
          | Except.ok (s2, out') => Except.ok (s2, out ++ out')

/-- State reached after the handler processes a finite trace of decoded
messages, each with its source address and clock reading (the pure
path: all sends succeed). -/
def runMsgs (s : RendezvousServer) :
    List (RendezvousMessage × SockAddr × Nat) → RendezvousServer
  | [] => s
  | e :: rest => runMsgs (handle_message s e.1 e.2.1 e.2.2).1 rest

/-! ### Helper lemmas on the registry and the handler -/

theorem lookupPeer_insertPeer_self (ps : List (String × PeerInfo))
    (k : String) (v : PeerInfo) :
    lookupPeer (insertPeer ps k v) k = some v := by
  simp [insertPeer, lookupPeer]

theorem lookupPeer_insertPeer_ne (ps : List (String × PeerInfo))
    (k q : String) (v : PeerInfo) (h : k ≠ q) :
    lookupPeer (insertPeer ps k v) q = lookupPeer ps q := by
  simp [insertPeer, lookupPeer, h]

/-- Effect of one dispatch on a single registry key: either the key's
binding is untouched, or the message was a `Register` for exactly that
key and the binding is now the freshly built record. -/
theorem handle_message_lookup (s : RendezvousServer) (msg : RendezvousMessage)
    (fromAddr : SockAddr) (now : Nat) (q : String) :
    lookupPeer (handle_message s msg fromAddr now).1.peers q = lookupPeer s.peers q
    ∨ ∃ priv, msg = RendezvousMessage.Register q priv ∧
        lookupPeer (handle_message s msg fromAddr now).1.peers q
          = some ⟨q, fromAddr, some priv, now⟩ := by
  cases msg with
  | Register p priv =>
      by_cases hpq : p = q
      · subst hpq
        exact Or.inr ⟨priv, rfl, by simp [handle_message, lookupPeer_insertPeer_self]⟩
      · exact Or.inl (by simp [handle_message, insertPeer, lookupPeer, hpq])
  | Query t =>
      cases hl : lookupPeer s.peers t <;> exact Or.inl (by simp [handle_message, hl])
  | PeerInfo pi => exact Or.inl rfl
  | InitiateConnection a b =>
      cases h1 : lookupPeer s.peers a <;> cases h2 : lookupPeer s.peers b <;>
        exact Or.inl (by simp [handle_message, h1, h2])

/-- A registered key stays registered across one dispatch. -/
theorem handle_message_registered (s : RendezvousServer) (msg : RendezvousMessage)
    (fromAddr : SockAddr) (now : Nat) (q : String) (r : PeerInfo)
    (h : lookupPeer s.peers q = some r) :
    ∃ r', lookupPeer (handle_message s msg fromAddr now).1.peers q = some r' := by
  rcases handle_message_lookup s msg fromAddr now q with heq | ⟨priv, _, heq⟩
  · exact ⟨r, heq.trans h⟩
  · exact ⟨_, heq⟩

/-- A registered key stays registered across a whole trace. -/
theorem runMsgs_registered (evs : List (RendezvousMessage × SockAddr × Nat)) :
    ∀ (s : RendezvousServer) (q : String) (r : PeerInfo),
      lookupPeer s.peers q = some r →
      ∃ r', lookupPeer (runMsgs s evs).peers q = some r' := by
  induction evs with
  | nil =>
      intro s q r h
      exact ⟨r, by simpa [runMsgs] using h⟩
  | cons e rest ih =>
      intro s q r h
      obtain ⟨r1, h1⟩ := handle_message_registered s e.1 e.2.1 e.2.2 q r h
      obtain ⟨r', h'⟩ := ih (handle_message s e.1 e.2.1 e.2.2).1 q r1 h1
      exact ⟨r', by simpa [runMsgs] using h'⟩

/-- One dispatch at clock `now ≥ c` keeps every record's `last_seen`
bounded by `now`, assuming they were bounded by `c` before. -/
theorem handle_message_last_seen_le (s : RendezvousServer) (msg : RendezvousMessage)
    (fromAddr : SockAddr) (now : Nat) (c : Nat)
    (hb : ∀ q r, lookupPeer s.peers q = some r → r.last_seen ≤ c) (hc : c ≤ now) :
    ∀ q r, lookupPeer (handle_message s msg fromAddr now).1.peers q = some r →
      r.last_seen ≤ now := by
  intro q r h
  rcases handle_message_lookup s msg fromAddr now q with heq | ⟨priv, _, heq⟩
  · rw [heq] at h
    exact le_trans (hb q r h) hc
  · rw [heq] at h
    injection h with he
    subst he
    exact le_rfl

/-- `last_seen` of a registered peer does not decrease across one
dispatch whose clock reading is at least the stored `last_seen`. -/
theorem handle_message_last_seen_mono (s : RendezvousServer) (msg : RendezvousMessage)
    (fromAddr : SockAddr) (now : Nat) (q : String) (r r' : PeerInfo)
    (h : lookupPeer s.peers q = some r)
    (h' : lookupPeer (handle_message s msg fromAddr now).1.peers q = some r')
    (hc : r.last_seen ≤ now) : r.last_seen ≤ r'.last_seen := by
  rcases handle_message_lookup s msg fromAddr now q with heq | ⟨priv, _, heq⟩
  · rw [heq, h] at h'
    injection h' with he
    subst he
    exact le_rfl
  · rw [heq] at h'
    injection h' with he
    subst he
    exact hc

/-- `last_seen` of a registered peer is monotone across a trace whose
clock readings are non-decreasing and bound the records already
present. -/
theorem runMsgs_last_seen_mono (evs : List (RendezvousMessage × SockAddr × Nat)) :
    ∀ (s : RendezvousServer) (c : Nat),
      (∀ q r, lookupPeer s.peers q = some r → r.last_seen ≤ c) →
      (∀ e ∈ evs, c ≤ e.2.2) →
      List.Pairwise (fun e1 e2 => e1.2.2 ≤ e2.2.2) evs →
      ∀ q r r', lookupPeer s.peers q = some r →
        lookupPeer (runMsgs s evs).peers q = some r' →
        r.last_seen ≤ r'.last_seen := by
  induction evs with
  | nil =>
      intro s c hb hmem hpw q r r' h h'
      simp only [runMsgs] at h'
      rw [h] at h'
      injection h' with he
      subst he
      exact le_rfl
  | cons e rest ih =>
      intro s c hb hmem hpw q r r' h h'
      simp only [runMsgs] at h'
      rw [List.pairwise_cons] at hpw
      obtain ⟨hhead, hpw'⟩ := hpw
      have hcnow : c ≤ e.2.2 := hmem e (List.mem_cons_self _ _)
      obtain ⟨r1, h1⟩ := handle_message_registered s e.1 e.2.1 e.2.2 q r h
      have hmono1 : r.last_seen ≤ r1.last_seen :=
        handle_message_last_seen_mono s e.1 e.2.1 e.2.2 q r r1 h h1
          (le_trans (hb q r h) hcnow)
      exact le_trans hmono1
        (ih (handle_message s e.1 e.2.1 e.2.2).1 e.2.2
          (handle_message_last_seen_le s e.1 e.2.1 e.2.2 c hb hcnow)
          hhead hpw' q r1 r' h1 h')

/-! ### Claim theorems -/

/-- Claim C1: after the handler processes `Register{p, priv}` received
from transport-observed source `S`, looking up `p` yields a record
whose `public_addr` is `S` (the datagram source, not anything from the
payload) and whose `private_addr` is the declared private address. -/
theorem register_public_from_source (s : RendezvousServer) (p : String)
    (priv : SockAddr) (S : SockAddr) (now : Nat) :
    ∃ r, lookupPeer
        (handle_message s (RendezvousMessage.Register p priv) S now).1.peers p
        = some r
      ∧ r.public_addr = S ∧ r.private_addr = some priv := by
  refine ⟨⟨p, S, some priv, now⟩, ?_, rfl, rfl⟩
  simp [handle_message, lookupPeer_insertPeer_self]

/-- Claim C3: `Query{p}` from source `fromAddr` sends exactly one
`PeerInfo` datagram back to `fromAddr` carrying the current record for
`p` when `p` is registered, and sends nothing when it is not. -/
theorem query_response (s : RendezvousServer) (p : String)
    (fromAddr : SockAddr) (now : Nat) :
    (∀ r, lookupPeer s.peers p = some r →
      handle_message s (RendezvousMessage.Query p) fromAddr now
        = (s, [⟨fromAddr, RendezvousMessage.PeerInfo r⟩]))
    ∧ (lookupPeer s.peers p = none →
      handle_message s (RendezvousMessage.Query p) fromAddr now = (s, [])) := by
  constructor
  · intro r h
    simp [handle_message, h]
  · intro h
    simp [handle_message, h]

/-- Witness for `query_response` at a one-peer registry. -/
theorem query_response_witness :
    handle_message ⟨[("alice", ⟨"alice", ⟨1, 2⟩, some ⟨3, 4⟩, 0⟩)]⟩
        (RendezvousMessage.Query "alice") ⟨5, 6⟩ 7
      = (⟨[("alice", ⟨"alice", ⟨1, 2⟩, some ⟨3, 4⟩, 0⟩)]⟩,
         [⟨⟨5, 6⟩, RendezvousMessage.PeerInfo ⟨"alice", ⟨1, 2⟩, some ⟨3, 4⟩, 0⟩⟩]) :=
  (query_response ⟨[("alice", ⟨"alice", ⟨1, 2⟩, some ⟨3, 4⟩, 0⟩)]⟩ "alice"
      ⟨5, 6⟩ 7).1 ⟨"alice", ⟨1, 2⟩, some ⟨3, 4⟩, 0⟩ (by decide)

/-- Claim C4: `InitiateConnection{a, b}` with both peers registered
sends exactly two datagrams, in this order: `b`'s record to `a`'s
registered public address and `a`'s record to `b`'s registered public
address; the registry is untouched. -/
theorem initiate_connection_both (s : RendezvousServer) (a b : String)
    (fromAddr : SockAddr) (now : Nat) (ra rb : PeerInfo)
    (ha : lookupPeer s.peers a = some ra)
    (hb : lookupPeer s.peers b = some rb) :
    handle_message s (RendezvousMessage.InitiateConnection a b) fromAddr now
      = (s, [⟨ra.public_addr, RendezvousMessage.PeerInfo rb⟩,
             ⟨rb.public_addr, RendezvousMessage.PeerInfo ra⟩]) := by
  simp [handle_message, ha, hb]

/-- Witness for `initiate_connection_both` on the spec's concrete
scenario: alice at public (209, 55000), bob at public (210, 55001). -/
theorem initiate_connection_both_witness :
    handle_message
        ⟨[("alice", ⟨"alice", ⟨209, 55000⟩, some ⟨105, 4000⟩, 1⟩),
          ("bob", ⟨"bob", ⟨210, 55001⟩, some ⟨106, 4000⟩, 2⟩)]⟩
        (RendezvousMessage.InitiateConnection "alice" "bob") ⟨7, 8⟩ 9
      = (⟨[("alice", ⟨"alice", ⟨209, 55000⟩, some ⟨105, 4000⟩, 1⟩),
           ("bob", ⟨"bob", ⟨210, 55001⟩, some ⟨106, 4000⟩, 2⟩)]⟩,
         [⟨⟨209, 55000⟩, RendezvousMessage.PeerInfo ⟨"bob", ⟨210, 55001⟩, some ⟨106, 4000⟩, 2⟩⟩,
          ⟨⟨210, 55001⟩, RendezvousMessage.PeerInfo ⟨"alice", ⟨209, 55000⟩, some ⟨105, 4000⟩, 1⟩⟩]) :=
  initiate_connection_both
    ⟨[("alice", ⟨"alice", ⟨209, 55000⟩, some ⟨105, 4000⟩, 1⟩),
      ("bob", ⟨"bob", ⟨210, 55001⟩, some ⟨106, 4000⟩, 2⟩)]⟩
    "alice" "bob" ⟨7, 8⟩ 9
    ⟨"alice", ⟨209, 55000⟩, some ⟨105, 4000⟩, 1⟩
    ⟨"bob", ⟨210, 55001⟩, some ⟨106, 4000⟩, 2⟩
    (by decide) (by decide)

/-- Claim C5: `InitiateConnection{a, b}` with either peer unregistered
sends nothing and leaves the state untouched; and no handler path ever
emits anything but a `PeerInfo` datagram (there is no error message on
the wire: every lookup miss is protocol silence). -/
theorem lookup_miss_silent :
    (∀ s a b fromAddr now,
      (lookupPeer s.peers a = none ∨ lookupPeer s.peers b = none) →
      handle_message s (RendezvousMessage.InitiateConnection a b) fromAddr now
        = (s, []))
    ∧ (∀ s msg fromAddr now d,
      d ∈ (handle_message s msg fromAddr now).2 →
      ∃ pi, d.msg = RendezvousMessage.PeerInfo pi) := by
  constructor
  · intro s a b fromAddr now h
    cases h1 : lookupPeer s.peers a <;> cases h2 : lookupPeer s.peers b <;>
      simp [handle_message, h1, h2] <;> rcases h with h | h <;>
        simp_all
  · intro s msg fromAddr now d hd
    cases msg with
    | Register p priv => simp [handle_message] at hd
    | Query t =>
        cases hl : lookupPeer s.peers t <;> simp [handle_message, hl] at hd
        · exact ⟨_, by rw [hd]⟩
    | PeerInfo pi => simp [handle_message] at hd
    | InitiateConnection a b =>
        cases h1 : lookupPeer s.peers a <;> cases h2 : lookupPeer s.peers b <;>
          simp [handle_message, h1, h2] at hd
        · rcases hd with hd | hd
          · exact ⟨_, by rw [hd]⟩
          · exact ⟨_, by rw [hd]⟩

/-- Witness for `lookup_miss_silent`: an unregistered pair on the empty
registry, and membership in the output of a served query. -/
theorem lookup_miss_silent_witness :
    handle_message ⟨[]⟩ (RendezvousMessage.InitiateConnection "alice" "bob")
        ⟨0, 0⟩ 0 = (⟨[]⟩, [])
    ∧ ∃ pi, (⟨⟨5, 6⟩, RendezvousMessage.PeerInfo ⟨"alice", ⟨1, 2⟩, some ⟨3, 4⟩, 0⟩⟩ : Datagram).msg
        = RendezvousMessage.PeerInfo pi :=
  ⟨lookup_miss_silent.1 ⟨[]⟩ "alice" "bob" ⟨0, 0⟩ 0 (Or.inl (by decide)),
   lookup_miss_silent.2 ⟨[("alice", ⟨"alice", ⟨1, 2⟩, some ⟨3, 4⟩, 0⟩)]⟩
     (RendezvousMessage.Query "alice") ⟨5, 6⟩ 7
     ⟨⟨5, 6⟩, RendezvousMessage.PeerInfo ⟨"alice", ⟨1, 2⟩, some ⟨3, 4⟩, 0⟩⟩
     (by simp [handle_message, lookupPeer])⟩

/-- Claim C10: any message that is not a `Register` (a `Query`, an
`InitiateConnection`, or an inbound `PeerInfo`) leaves the server
state — hence every registry record and the key set — exactly
unchanged. -/
theorem non_register_preserves_registry (s : RendezvousServer)
    (msg : RendezvousMessage) (fromAddr : SockAddr) (now : Nat)
    (h : msg.isRegister = false) :
    (handle_message s msg fromAddr now).1 = s := by
  cases msg with
  | Register p priv => simp [RendezvousMessage.isRegister] at h
  | Query t =>
      cases hl : lookupPeer s.peers t <;> simp [handle_message, hl]
  | PeerInfo pi => rfl
  | InitiateConnection a b =>
      cases h1 : lookupPeer s.peers a <;> cases h2 : lookupPeer s.peers b <;>
        simp [handle_message, h1, h2]

/-- Witness for `non_register_preserves_registry` at a concrete query. -/
theorem non_register_preserves_registry_witness :
    (handle_message ⟨[("alice", ⟨"alice", ⟨1, 2⟩, some ⟨3, 4⟩, 0⟩)]⟩
        (RendezvousMessage.Query "alice") ⟨5, 6⟩ 7).1
      = ⟨[("alice", ⟨"alice", ⟨1, 2⟩, some ⟨3, 4⟩, 0⟩)]⟩ :=
  non_register_preserves_registry
    ⟨[("alice", ⟨"alice", ⟨1, 2⟩, some ⟨3, 4⟩, 0⟩)]⟩
    (RendezvousMessage.Query "alice") ⟨5, 6⟩ 7 (by decide)

/-- Claim C2: a second `Register` for the same peer from a new source
`S2` overwrites the record (last write wins) with `public_addr = S2`;
its `last_seen` is the clock reading of that dispatch, so it strictly
advances whenever the clock strictly advanced, and across any trace of
messages with a non-decreasing clock the `last_seen` of a registered
peer is monotonically non-decreasing. -/
theorem reregister_last_write_wins :
    (∀ s p priv2 S2 now r, lookupPeer s.peers p = some r →
      ∃ r', lookupPeer
          (handle_message s (RendezvousMessage.Register p priv2) S2 now).1.peers p
          = some r'
        ∧ r'.public_addr = S2 ∧ r'.private_addr = some priv2
        ∧ r'.last_seen = now
        ∧ (r.last_seen ≤ now → r.last_seen ≤ r'.last_seen)
        ∧ (r.last_seen < now → r.last_seen < r'.last_seen))
    ∧ (∀ (evs : List (RendezvousMessage × SockAddr × Nat))
        (s : RendezvousServer) (c : Nat),
      (∀ q r, lookupPeer s.peers q = some r → r.last_seen ≤ c) →
      (∀ e ∈ evs, c ≤ e.2.2) →
      List.Pairwise (fun e1 e2 => e1.2.2 ≤ e2.2.2) evs →
      ∀ q r r', lookupPeer s.peers q = some r →
        lookupPeer (runMsgs s evs).peers q = some r' →
        r.last_seen ≤ r'.last_seen) := by
  constructor
  · intro s p priv2 S2 now r h
    refine ⟨⟨p, S2, some priv2, now⟩, ?_, rfl, rfl, rfl, fun hle => hle, fun hlt => hlt⟩
    simp [handle_message, lookupPeer_insertPeer_self]
  · exact fun evs => runMsgs_last_seen_mono evs

/-- Witness for `reregister_last_write_wins`: re-register "alice" from
a new source at a later clock, and run the monotonicity part over a
concrete two-event trace. -/
theorem reregister_last_write_wins_witness :
    (∃ r', lookupPeer
        (handle_message ⟨[("alice", ⟨"alice", ⟨1, 2⟩, some ⟨3, 4⟩, 5⟩)]⟩
          (RendezvousMessage.Register "alice" ⟨30, 40⟩) ⟨10, 20⟩ 9).1.peers "alice"
        = some r'
      ∧ r'.public_addr = ⟨10, 20⟩ ∧ r'.private_addr = some ⟨30, 40⟩
      ∧ r'.last_seen = 9
      ∧ ((5 : Nat) ≤ 9 → (5 : Nat) ≤ r'.last_seen)
      ∧ ((5 : Nat) < 9 → (5 : Nat) < r'.last_seen))
    ∧ ((5 : Nat) ≤ 7) :=
  ⟨reregister_last_write_wins.1
      ⟨[("alice", ⟨"alice", ⟨1, 2⟩, some ⟨3, 4⟩, 5⟩)]⟩
      "alice" ⟨30, 40⟩ ⟨10, 20⟩ 9 ⟨"alice", ⟨1, 2⟩, some ⟨3, 4⟩, 5⟩ (by decide),
   by
    exact reregister_last_write_wins.2
      [(RendezvousMessage.Register "alice" ⟨30, 40⟩, ⟨10, 20⟩, 7),
       (RendezvousMessage.Query "alice", ⟨10, 20⟩, 8)]
      ⟨[("alice", ⟨"alice", ⟨1, 2⟩, some ⟨3, 4⟩, 5⟩)]⟩ 5
      (by
        intro q r h
        simp only [lookupPeer] at h
        by_cases hq : "alice" = q
        · rw [if_pos hq] at h
          injection h with he
          subst he
          exact le_rfl
        · rw [if_neg hq] at h
          exact absurd h (by simp))
      (by decide)
      (by decide)
      "alice" ⟨"alice", ⟨1, 2⟩, some ⟨3, 4⟩, 5⟩
      ⟨"alice", ⟨10, 20⟩, some ⟨30, 40⟩, 7⟩
      (by decide)
      (by decide)⟩

/-- Claim C8: no message ever removes a registry entry — a registered
peer stays registered across any single dispatch and across any trace
of dispatches, so the set of registered identifiers never shrinks. -/
theorem registry_never_deletes :
    (∀ s msg fromAddr now q r, lookupPeer s.peers q = some r →
      ∃ r', lookupPeer (handle_message s msg fromAddr now).1.peers q = some r')
    ∧ (∀ (evs : List (RendezvousMessage × SockAddr × Nat)) s q r,
      lookupPeer s.peers q = some r →
      ∃ r', lookupPeer (runMsgs s evs).peers q = some r') :=
  ⟨fun s msg fromAddr now q r h =>
      handle_message_registered s msg fromAddr now q r h,
   fun evs s q r h => runMsgs_registered evs s q r h⟩

/-- Witness for `registry_never_deletes`: "alice" survives a register
of "bob" and a whole short trace. -/
theorem registry_never_deletes_witness :
    (∃ r', lookupPeer
        (handle_message ⟨[("alice", ⟨"alice", ⟨1, 2⟩, some ⟨3, 4⟩, 0⟩)]⟩
          (RendezvousMessage.Register "bob" ⟨9, 9⟩) ⟨8, 8⟩ 1).1.peers "alice"
        = some r')
    ∧ (∃ r', lookupPeer
        (runMsgs ⟨[("alice", ⟨"alice", ⟨1, 2⟩, some ⟨3, 4⟩, 0⟩)]⟩
          [(RendezvousMessage.Register "bob" ⟨9, 9⟩, ⟨8, 8⟩, 1),
           (RendezvousMessage.Query "alice", ⟨8, 8⟩, 2)]).peers "alice"
        = some r') :=
  ⟨registry_never_deletes.1 ⟨[("alice", ⟨"alice", ⟨1, 2⟩, some ⟨3, 4⟩, 0⟩)]⟩
      (RendezvousMessage.Register "bob" ⟨9, 9⟩) ⟨8, 8⟩ 1 "alice"
      ⟨"alice", ⟨1, 2⟩, some ⟨3, 4⟩, 0⟩ (by decide),
   registry_never_deletes.2
      [(RendezvousMessage.Register "bob" ⟨9, 9⟩, ⟨8, 8⟩, 1),
       (RendezvousMessage.Query "alice", ⟨8, 8⟩, 2)]
      ⟨[("alice", ⟨"alice", ⟨1, 2⟩, some ⟨3, 4⟩, 0⟩)]⟩ "alice"
      ⟨"alice", ⟨1, 2⟩, some ⟨3, 4⟩, 0⟩ (by decide)⟩

/-- Counterexample to claim C9 as stated: no `Register` message can
carry "no private address" — the variant's field is mandatory in the
source (`private_addr: SocketAddr`, not an `Option`). -/
theorem register_private_never_absent :
    ¬ ∃ m : RendezvousMessage,
        m.isRegister = true ∧ m.registerPrivate = none := by
  rintro ⟨m, hreg, hpriv⟩
  cases m <;>
    simp [RendezvousMessage.isRegister, RendezvousMessage.registerPrivate]
      at hreg hpriv

/-- Claim C9, amended: every `Register` message carries exactly one
private address (the field is mandatory), and the record's
`private_addr` field — though typed as optional — is always present
after a `Register` is processed. -/
theorem register_private_mandatory :
    (∀ m : RendezvousMessage, m.isRegister = true →
      ∃ a, m.registerPrivate = some a)
    ∧ (∀ s p priv S now,
      ∃ r, lookupPeer
          (handle_message s (RendezvousMessage.Register p priv) S now).1.peers p
          = some r
        ∧ r.private_addr = some priv) := by
  constructor
  · intro m h
    cases m <;> simp [RendezvousMessage.isRegister] at h <;>
      exact ⟨_, rfl⟩
  · intro s p priv S now
    exact ⟨⟨p, S, some priv, now⟩,
      by simp [handle_message, lookupPeer_insertPeer_self], rfl⟩

/-- Witness for `register_private_mandatory` at a concrete message. -/
theorem register_private_mandatory_witness :
    ∃ a, (RendezvousMessage.Register "alice" ⟨3, 4⟩).registerPrivate = some a :=
  register_private_mandatory.1 (RendezvousMessage.Register "alice" ⟨3, 4⟩) rfl

/-- Claim C6: a datagram whose bytes fail to decode produces no
outbound datagram and no state change, and the loop goes on: the run
over a trace starting with the bad datagram equals the run over the
rest of the trace. -/
theorem decode_failure_silent :
    (∀ (sendOk : Datagram → Bool) s fromAddr now,
      runStep sendOk s (NetEvent.recv none fromAddr) now = Except.ok (s, []))
    ∧ (∀ (sendOk : Datagram → Bool) s fromAddr now rest,
      runEvents sendOk s ((NetEvent.recv none fromAddr, now) :: rest)
        = runEvents sendOk s rest) := by
  constructor
  · intro sendOk s fromAddr now
    rfl
  · intro sendOk s fromAddr now rest
    cases h : runEvents sendOk s rest with
    | error u => simp [runEvents, runStep, h]
    | ok p => simp [runEvents, runStep, h]

/-- Counterexample to claim C7 as stated: with one peer registered and
the environment refusing the send, a `Query` dispatched by the loop
propagates the I/O error out of the handler (the `?` operator), so the
loop iteration ends in an error — `run` returns it and the loop
terminates, rather than logging and continuing. -/
theorem send_error_terminates_loop :
    runStep (fun _ => false)
      ⟨[("alice", ⟨"alice", ⟨1, 2⟩, some ⟨3, 4⟩, 0⟩)]⟩
      (NetEvent.recv (some (RendezvousMessage.Query "alice")) ⟨5, 6⟩) 7
      = Except.error () := by
  simp [runStep, handle_messageE, lookupPeer]

/-- Claim C7, amended: a receive-side socket I/O error other than
would-block is logged and the loop continues unchanged, but an I/O
error during an outbound send performed by the handler propagates out
of `handle_message` and out of `run`, terminating the loop. -/
theorem recv_error_continues :
    (∀ (sendOk : Datagram → Bool) s now,
      runStep sendOk s NetEvent.ioErr now = Except.ok (s, []))
    ∧ (∀ (sendOk : Datagram → Bool) s now rest,
      runEvents sendOk s ((NetEvent.ioErr, now) :: rest)
        = runEvents sendOk s rest)
    ∧ (∀ s p fromAddr now r, lookupPeer s.peers p = some r →
      handle_messageE (fun _ => false) s (RendezvousMessage.Query p) fromAddr now
        = Except.error ()) := by
  refine ⟨fun sendOk s now => rfl, ?_, ?_⟩
  · intro sendOk s now rest
    cases h : runEvents sendOk s rest with
    | error u => simp [runEvents, runStep, h]
    | ok p => simp [runEvents, runStep, h]
  · intro s p fromAddr now r h
    simp [handle_messageE, h]

/-- Witness for `recv_error_continues` at a concrete failed send. -/
theorem recv_error_continues_witness :
    handle_messageE (fun _ => false)
      ⟨[("alice", ⟨"alice", ⟨1, 2⟩, some ⟨3, 4⟩, 0⟩)]⟩
      (RendezvousMessage.Query "alice") ⟨5, 6⟩ 7 = Except.error () :=
  recv_error_continues.2.2 ⟨[("alice", ⟨"alice", ⟨1, 2⟩, some ⟨3, 4⟩, 0⟩)]⟩
    "alice" ⟨5, 6⟩ 7 ⟨"alice", ⟨1, 2⟩, some ⟨3, 4⟩, 0⟩ (by decide)
